import Mathlib

/-!
Shallow embedding of the Game of Life automaton core from GOLcpp.cpp.

The C program keeps two `unsigned char` arrays of extent
`gridWidth × gridHeight` (both 200 in the reference configuration).
We model a cell buffer as a total function `Nat → Nat → Nat`; only the
in-bounds region (first index below the width, second below the height)
corresponds to actual array storage, and all theorems about buffer
contents are stated on that region.  The grid extents, which are
compile-time constants in the C source, appear here as parameters `W`
and `H`, so that the spec's scenarios at extents 3 and 5 are statable.
-/

namespace GOL

/-- A cell buffer: `g x y` is the value stored at column `x`, row `y`
(the C code indexes `g[x][y]` with `x` bounded by the width). -/
def Grid : Type := Nat → Nat → Nat

/-- A single element assignment `buf[x][y] = v`, as performed by
`gCopy[x][y] = ...` in the C loop. -/
def writeCell (g : Grid) (x y v : Nat) : Grid :=
  fun a b => if a = x ∧ b = y then v else g a b

/-- The pair of buffers held by `main`: `cur` is `grid` (the committed
generation) and `work` is `gridCopy` (the next-generation scratch). -/
structure GridState where
  cur : Grid
  work : Grid

/-- `xL`/`yT` in `LiveNeighbourCount`: the low-side wrapped index,
`isEdge ? N - 1 : c - 1`. -/
def wrapLow (N c : Nat) : Nat := if c = 0 then N - 1 else c - 1

/-- `xR`/`yB` in `LiveNeighbourCount`: the high-side wrapped index,
`isEdge ? 0 : c + 1`. -/
def wrapHigh (N c : Nat) : Nat := if c = N - 1 then 0 else c + 1

/-- `LiveNeighbourCount(x, y, g)` from the C source: sums, over the
eight wrapped neighbour coordinates, one per neighbour whose stored
value equals 1, in the order the C code accumulates `count`. -/
def LiveNeighbourCount (W H x y : Nat) (g : Grid) : Nat :=
  (if g (wrapLow W x) (wrapLow H y) = 1 then 1 else 0) +
  (if g x (wrapLow H y) = 1 then 1 else 0) +
  (if g (wrapHigh W x) (wrapLow H y) = 1 then 1 else 0) +
  (if g (wrapLow W x) y = 1 then 1 else 0) +
  (if g (wrapHigh W x) y = 1 then 1 else 0) +
  (if g (wrapLow W x) (wrapHigh H y) = 1 then 1 else 0) +
  (if g x (wrapHigh H y) = 1 then 1 else 0) +
  (if g (wrapHigh W x) (wrapHigh H y) = 1 then 1 else 0)

/-- The eight neighbour coordinates read by `LiveNeighbourCount`, in
the order of its eight `count +=` lines. -/
def neighbourCoords (W H x y : Nat) : List (Nat × Nat) :=
  [(wrapLow W x, wrapLow H y), (x, wrapLow H y), (wrapHigh W x, wrapLow H y),
   (wrapLow W x, y), (wrapHigh W x, y),
   (wrapLow W x, wrapHigh H y), (x, wrapHigh H y), (wrapHigh W x, wrapHigh H y)]

/-- Modelled from the spec (§4.2 step 1): the eight neighbour
coordinates by the wraparound formula, `(coord - 1 + N) mod N` on the
low side and `(coord + 1) mod N` on the high side (written
`(c + N - 1) % N` over `Nat`, which agrees for `0 ≤ c < N`). -/
def neighbourCoordsSpec (W H x y : Nat) : List (Nat × Nat) :=
  [((x + W - 1) % W, (y + H - 1) % H), (x, (y + H - 1) % H), ((x + 1) % W, (y + H - 1) % H),
   ((x + W - 1) % W, y), ((x + 1) % W, y),
   ((x + W - 1) % W, (y + 1) % H), (x, (y + 1) % H), ((x + 1) % W, (y + 1) % H)]

/-- Modelled from the spec (§4.2 step 2): the count of ALIVE cells
among the eight formula-given neighbour coordinates. -/
def LiveNeighbourCountSpec (W H x y : Nat) (g : Grid) : Nat :=
  ((neighbourCoordsSpec W H x y).map (fun c => if g c.1 c.2 = 1 then 1 else 0)).sum

/-- The per-cell branch of `CalculateNextGeneration`: a live cell with
neighbour count other than 2 or 3 dies, otherwise survives; a dead
cell with count exactly 3 becomes live, otherwise stays dead. -/
def nextCell (W H : Nat) (g : Grid) (x y : Nat) : Nat :=
  if g x y = 1 then
    if LiveNeighbourCount W H x y g ≠ 2 ∧ LiveNeighbourCount W H x y g ≠ 3 then 0 else 1
  else
    if LiveNeighbourCount W H x y g = 3 then 1 else 0

/-- One iteration of the inner loop body of `CalculateNextGeneration`:
read the neighbour count from the current buffer and write the next
state of cell `(x, y)` into the working buffer. -/
def stepCell (W H : Nat) (st : GridState) (x y : Nat) : GridState :=
  { st with work := writeCell st.work x y (nextCell W H st.cur x y) }

/-- The inner loop over `y` for a fixed column `x`. -/
def stepRow (W H x : Nat) (st : GridState) : GridState :=
  (List.range H).foldl (fun s y => stepCell W H s x y) st

/-- The double loop of `CalculateNextGeneration` before the `memcpy`:
every in-bounds cell's next state is written into the working buffer. -/
def doWrites (W H : Nat) (st : GridState) : GridState :=
  (List.range W).foldl (fun s x => stepRow W H x s) st

/-- The closing `memcpy(g, gCopy, sizeof(g))`: the current buffer's
entire `W × H` storage is replaced by the working buffer's contents. -/
def commit (W H : Nat) (st : GridState) : GridState :=
  { st with cur := fun a b => if a < W ∧ b < H then st.work a b else st.cur a b }

/-- `CalculateNextGeneration(g, gCopy)`: run the per-cell write loop,
then copy the working buffer back over the current buffer. -/
def CalculateNextGeneration (W H : Nat) (st : GridState) : GridState :=
  commit W H (doWrites W H st)

/-- The spec's `setNext(x, y, state)` (§4.1): a single write into the
working buffer; in the C code this is the assignment `gCopy[x][y] = v`. -/
def setNext (st : GridState) (x y v : Nat) : GridState :=
  { st with work := writeCell st.work x y v }

/-- `InitGrid` from the C source, with the compile-time constants
`gridWidth`, `gridHeight`, `percentageInit` as parameters `W`, `H`,
`P` and the `rand()` stream abstracted as `rands` (the cell at
`(i, j)` consumes the `i * H + j`-th draw, matching the loop order).
Each in-bounds cell becomes 1 when `rand() % 100 < P`, else 0; cells
outside the extent have no storage and are modelled as 0. -/
def InitGrid (W H P : Nat) (rands : Nat → Nat) : Grid :=
  fun i j =>
    if i < W ∧ j < H then
      if rands (i * H + j) % 100 < P then 1 else 0
    else 0

/-- The spec's transition table (§4.2 step 3), ALIVE = 1, DEAD = 0:
underpopulation, survival, overpopulation, reproduction, no change. -/
def rule (s n : Nat) : Nat :=
  if s = 1 then
    if n < 2 then 0
    else if n = 2 ∨ n = 3 then 1
    else 0
  else
    if n = 3 then 1 else 0

/-- Every cell of the grid holds a two-valued (ALIVE/DEAD) state. -/
def validGrid (W H : Nat) (g : Grid) : Prop :=
  ∀ i, i < W → ∀ j, j < H → g i j = 0 ∨ g i j = 1

/-- The 3×3 all-ALIVE grid of the spec's neighbour-count scenario. -/
def allAlive3 : Grid := fun a b => if a < 3 ∧ b < 3 then 1 else 0

/-- The horizontal three-cell blinker on a 5×5 grid. -/
def blinkH : Grid := fun x y => if (x = 1 ∨ x = 2 ∨ x = 3) ∧ y = 2 then 1 else 0

/-- The vertical three-cell blinker on a 5×5 grid. -/
def blinkV : Grid := fun x y => if x = 2 ∧ (y = 1 ∨ y = 2 ∨ y = 3) then 1 else 0

/-- A 5×5 grid with a single ALIVE cell at (2, 2). -/
def single5 : Grid := fun x y => if x = 2 ∧ y = 2 then 1 else 0

/-- The all-DEAD state (both buffers zero). -/
def deadState : GridState := ⟨fun _ _ => 0, fun _ _ => 0⟩

theorem wrapLow_eq_mod (N c : Nat) (hN : 0 < N) (hc : c < N) :
    wrapLow N c = (c + N - 1) % N := by
  unfold wrapLow
  by_cases h : c = 0
  · subst h
    simp [Nat.mod_eq_of_lt (Nat.sub_lt hN Nat.one_pos)]
  · have h1 : 1 ≤ c := Nat.one_le_iff_ne_zero.mpr h
    have : c + N - 1 = (c - 1) + N := by omega
    rw [if_neg h, this, Nat.add_mod_right, Nat.mod_eq_of_lt (by omega)]

theorem wrapHigh_eq_mod (N c : Nat) (hN : 0 < N) (hc : c < N) :
    wrapHigh N c = (c + 1) % N := by
  unfold wrapHigh
  by_cases h : c = N - 1
  · subst h
    have : N - 1 + 1 = N := by omega
    simp [this]
  · rw [if_neg h, Nat.mod_eq_of_lt (by omega)]

theorem wrapLow_lt (N c : Nat) (hN : 0 < N) (hc : c < N) : wrapLow N c < N := by
  unfold wrapLow
  by_cases h : c = 0 <;> simp [h] <;> omega

theorem wrapHigh_lt (N c : Nat) (hN : 0 < N) (hc : c < N) : wrapHigh N c < N := by
  unfold wrapHigh
  by_cases h : c = N - 1 <;> simp [h] <;> omega

theorem stepCell_cur (W H : Nat) (st : GridState) (x y : Nat) :
    (stepCell W H st x y).cur = st.cur := rfl

theorem foldl_stepCell_cur (W H x : Nat) (ys : List Nat) (st : GridState) :
    ((ys.foldl (fun s y => stepCell W H s x y) st)).cur = st.cur := by
  induction ys generalizing st with
  | nil => rfl
  | cons y ys ih => rw [List.foldl_cons]; exact ih _

theorem stepRow_cur (W H x : Nat) (st : GridState) :
    (stepRow W H x st).cur = st.cur := foldl_stepCell_cur W H x _ st

theorem foldl_stepRow_cur (W H : Nat) (xs : List Nat) (st : GridState) :
    ((xs.foldl (fun s x => stepRow W H x s) st)).cur = st.cur := by
  induction xs generalizing st with
  | nil => rfl
  | cons x xs ih => rw [List.foldl_cons, ih]; exact stepRow_cur W H x st

theorem doWrites_cur (W H : Nat) (st : GridState) :
    (doWrites W H st).cur = st.cur := foldl_stepRow_cur W H _ st

theorem foldl_stepCell_work (W H x : Nat) (ys : List Nat) (st : GridState) (a b : Nat) :
    ((ys.foldl (fun s y => stepCell W H s x y) st)).work a b
      = if a = x ∧ b ∈ ys then nextCell W H st.cur a b else st.work a b := by
  induction ys generalizing st with
  | nil => simp
  | cons y ys ih =>
    rw [List.foldl_cons, ih]
    show (if a = x ∧ b ∈ ys then nextCell W H st.cur a b
          else writeCell st.work x y (nextCell W H st.cur x y) a b)
        = if a = x ∧ b ∈ y :: ys then nextCell W H st.cur a b else st.work a b
    unfold writeCell
    by_cases hax : a = x
    · subst hax
      by_cases hby : b = y
      · subst hby; simp
      · simp [hby, List.mem_cons]
    · simp [hax]

theorem stepRow_work (W H x : Nat) (st : GridState) (a b : Nat) :
    (stepRow W H x st).work a b
      = if a = x ∧ b < H then nextCell W H st.cur a b else st.work a b := by
  unfold stepRow
  rw [foldl_stepCell_work]
  simp [List.mem_range]

theorem doWrites_work (W H : Nat) (st : GridState) (a b : Nat) :
    (doWrites W H st).work a b
      = if a < W ∧ b < H then nextCell W H st.cur a b else st.work a b := by
  unfold doWrites
  have key : ∀ (xs : List Nat) (st : GridState),
      ((xs.foldl (fun s x => stepRow W H x s) st)).work a b
        = if a ∈ xs ∧ b < H then nextCell W H st.cur a b else st.work a b := by
    intro xs
    induction xs with
    | nil => intro st; simp
    | cons x xs ih =>
      intro st
      rw [List.foldl_cons, ih, stepRow_cur, stepRow_work]
      by_cases hax : a = x
      · subst hax; by_cases hb : b < H <;> simp [hb, List.mem_cons]
      · simp [hax, List.mem_cons]
  rw [key]
  simp [List.mem_range]

theorem CalculateNextGeneration_cur (W H : Nat) (st : GridState) (a b : Nat) :
    (CalculateNextGeneration W H st).cur a b
      = if a < W ∧ b < H then nextCell W H st.cur a b else st.cur a b := by
  unfold CalculateNextGeneration commit
  show (if a < W ∧ b < H then (doWrites W H st).work a b else (doWrites W H st).cur a b)
      = if a < W ∧ b < H then nextCell W H st.cur a b else st.cur a b
  rw [doWrites_work, doWrites_cur]
  by_cases h : a < W ∧ b < H <;> simp [h]

theorem CalculateNextGeneration_work (W H : Nat) (st : GridState) (a b : Nat) :
    (CalculateNextGeneration W H st).work a b
      = if a < W ∧ b < H then nextCell W H st.cur a b else st.work a b := by
  unfold CalculateNextGeneration commit
  show (doWrites W H st).work a b = _
  rw [doWrites_work]

theorem nextCell_eq_rule (W H : Nat) (g : Grid) (x y : Nat) :
    nextCell W H g x y = rule (g x y) (LiveNeighbourCount W H x y g) := by
  unfold nextCell rule
  by_cases hs : g x y = 1 <;> simp [hs] <;> split_ifs <;> omega

theorem nextCell_congr (W H x y : Nat) (g1 g2 : Grid) (hW : 0 < W) (hH : 0 < H)
    (hx : x < W) (hy : y < H)
    (h : ∀ a b, a < W → b < H → g1 a b = g2 a b) :
    nextCell W H g1 x y = nextCell W H g2 x y := by
  have hxL := wrapLow_lt W x hW hx
  have hxR := wrapHigh_lt W x hW hx
  have hyT := wrapLow_lt H y hH hy
  have hyB := wrapHigh_lt H y hH hy
  have hcount : LiveNeighbourCount W H x y g1 = LiveNeighbourCount W H x y g2 := by
    unfold LiveNeighbourCount
    rw [h _ _ hxL hyT, h _ _ hx hyT, h _ _ hxR hyT, h _ _ hxL hy, h _ _ hxR hy,
        h _ _ hxL hyB, h _ _ hx hyB, h _ _ hxR hyB]
  unfold nextCell
  rw [hcount, h x y hx hy]

theorem nextCell_two_valued (W H : Nat) (g : Grid) (x y : Nat) :
    nextCell W H g x y = 0 ∨ nextCell W H g x y = 1 := by
  unfold nextCell
  split_ifs <;> simp

theorem nextCell_dead (W H x y : Nat) (g : Grid) (h : ∀ a b, g a b = 0) :
    nextCell W H g x y = 0 := by
  unfold nextCell LiveNeighbourCount
  simp [h]

theorem allAlive3_two_valued : ∀ a b, allAlive3 a b = 0 ∨ allAlive3 a b = 1 := by
  intro a b
  unfold allAlive3
  split_ifs <;> simp

/-- C1: for a two-valued grid and any in-bounds cell `(x, y)`, one
generation step writes as the cell's next state exactly
`rule(currentState, n)` where `n` is the live count among its eight
wraparound neighbours read from the pre-step buffer; the result is
independent of the working buffer's prior contents, so no cell's
computation observes another cell's already-written next state. -/
theorem step_applies_rule (W H : Nat) (st : GridState) (x y : Nat)
    (hgrid : ∀ a b, st.cur a b = 0 ∨ st.cur a b = 1)
    (hx : x < W) (hy : y < H) :
    (CalculateNextGeneration W H st).cur x y
      = rule (st.cur x y) (LiveNeighbourCount W H x y st.cur)
    ∧ ∀ work2 : Grid,
        (CalculateNextGeneration W H ⟨st.cur, work2⟩).cur x y
          = (CalculateNextGeneration W H st).cur x y := by
  constructor
  · rw [CalculateNextGeneration_cur]
    simp only [hx, hy, and_self, if_true]
    exact nextCell_eq_rule W H st.cur x y
  · intro work2
    rw [CalculateNextGeneration_cur, CalculateNextGeneration_cur]

theorem step_applies_rule_witness :
    (CalculateNextGeneration 3 3 ⟨allAlive3, fun _ _ => 0⟩).cur 0 0
      = rule (allAlive3 0 0) (LiveNeighbourCount 3 3 0 0 allAlive3) :=
  (step_applies_rule 3 3 ⟨allAlive3, fun _ _ => 0⟩ 0 0
    allAlive3_two_valued (by decide) (by decide)).1

/-- C2: for every in-bounds cell of a non-degenerate grid, the eight
neighbour coordinates used by the live-neighbour count are exactly
those of the wraparound formula `(c - 1 + N) mod N` / `(c + 1) mod N`,
and the count equals the formula-based count; in particular on a 3×3
grid the neighbour set of (0, 0) contains (2, 2), (2, 0) and (0, 2). -/
theorem neighbours_wraparound :
    (∀ (W H x y : Nat) (g : Grid), 0 < W → 0 < H → x < W → y < H →
        neighbourCoords W H x y = neighbourCoordsSpec W H x y ∧
        LiveNeighbourCount W H x y g = LiveNeighbourCountSpec W H x y g)
    ∧ ((2, 2) ∈ neighbourCoords 3 3 0 0 ∧ (2, 0) ∈ neighbourCoords 3 3 0 0 ∧
        (0, 2) ∈ neighbourCoords 3 3 0 0) := by
  constructor
  · intro W H x y g hW hH hx hy
    have eL := wrapLow_eq_mod W x hW hx
    have eR := wrapHigh_eq_mod W x hW hx
    have eT := wrapLow_eq_mod H y hH hy
    have eB := wrapHigh_eq_mod H y hH hy
    constructor
    · unfold neighbourCoords neighbourCoordsSpec
      rw [eL, eR, eT, eB]
    · unfold LiveNeighbourCount LiveNeighbourCountSpec neighbourCoordsSpec
      rw [eL, eR, eT, eB]
      simp [List.sum_cons]
      omega
  · refine ⟨?_, ?_, ?_⟩ <;> decide

theorem neighbours_wraparound_witness :
    neighbourCoords 3 3 0 0 = neighbourCoordsSpec 3 3 0 0 :=
  (neighbours_wraparound.1 3 3 0 0 (fun _ _ => 0)
    (by decide) (by decide) (by decide) (by decide)).1

theorem step_dead_dead (W H : Nat) (st : GridState)
    (hc : ∀ a b, st.cur a b = 0) (hw : ∀ a b, st.work a b = 0) :
    (∀ a b, (CalculateNextGeneration W H st).cur a b = 0) ∧
    (∀ a b, (CalculateNextGeneration W H st).work a b = 0) := by
  constructor
  · intro a b
    rw [CalculateNextGeneration_cur]
    split_ifs with h
    · exact nextCell_dead W H a b st.cur hc
    · exact hc a b
  · intro a b
    rw [CalculateNextGeneration_work]
    split_ifs with h
    · exact nextCell_dead W H a b st.cur hc
    · exact hw a b

/-- C3: any sequence of `setNext` writes leaves every cell of the
current buffer at its unchanged pre-step value (as does the step's own
write loop), and `commit` makes the current buffer equal the working
buffer at every in-bounds cell — a complete replacement. -/
theorem buffer_isolation :
    (∀ (writes : List (Nat × Nat × Nat)) (st : GridState) (x y : Nat),
        ((writes.foldl (fun s w => setNext s w.1 w.2.1 w.2.2) st)).cur x y = st.cur x y)
    ∧ (∀ (W H : Nat) (st : GridState), (doWrites W H st).cur = st.cur)
    ∧ (∀ (W H : Nat) (st : GridState) (x y : Nat), x < W → y < H →
        (commit W H st).cur x y = st.work x y) := by
  refine ⟨?_, ?_, ?_⟩
  · intro writes
    induction writes with
    | nil => intro st x y; rfl
    | cons w ws ih => intro st x y; rw [List.foldl_cons]; exact ih _ x y
  · exact doWrites_cur
  · intro W H st x y hx hy
    unfold commit
    show (if x < W ∧ y < H then st.work x y else st.cur x y) = st.work x y
    rw [if_pos ⟨hx, hy⟩]

theorem buffer_isolation_witness :
    (commit 1 1 ⟨fun _ _ => 3, fun _ _ => 7⟩).cur 0 0 = (7 : Nat) :=
  buffer_isolation.2.2 1 1 ⟨fun _ _ => 3, fun _ _ => 7⟩ 0 0 (by decide) (by decide)

/-- C4: two states whose current buffers agree on every in-bounds cell
produce, after one generation step, identical current and working
buffers on every in-bounds cell: the step is a deterministic function
of the starting buffer alone. -/
theorem step_deterministic (W H : Nat) (s1 s2 : GridState) (hW : 0 < W) (hH : 0 < H)
    (h : ∀ a b, a < W → b < H → s1.cur a b = s2.cur a b) :
    ∀ x y, x < W → y < H →
      (CalculateNextGeneration W H s1).cur x y
        = (CalculateNextGeneration W H s2).cur x y ∧
      (CalculateNextGeneration W H s1).work x y
        = (CalculateNextGeneration W H s2).work x y := by
  intro x y hx hy
  have hnc := nextCell_congr W H x y s1.cur s2.cur hW hH hx hy h
  constructor
  · rw [CalculateNextGeneration_cur, CalculateNextGeneration_cur,
        if_pos ⟨hx, hy⟩, if_pos ⟨hx, hy⟩, hnc]
  · rw [CalculateNextGeneration_work, CalculateNextGeneration_work,
        if_pos ⟨hx, hy⟩, if_pos ⟨hx, hy⟩, hnc]

theorem step_deterministic_witness :
    (CalculateNextGeneration 1 1 ⟨fun _ _ => 1, fun _ _ => 5⟩).cur 0 0
      = (CalculateNextGeneration 1 1
          ⟨fun a b => if a = 0 ∧ b = 0 then 1 else 0, fun _ _ => 7⟩).cur 0 0 :=
  (step_deterministic 1 1 ⟨fun _ _ => 1, fun _ _ => 5⟩
    ⟨fun a b => if a = 0 ∧ b = 0 then 1 else 0, fun _ _ => 7⟩
    (by decide) (by decide)
    (by
      intro a b ha hb
      have ha0 : a = 0 := by omega
      have hb0 : b = 0 := by omega
      subst ha0; subst hb0; decide)
    0 0 (by decide) (by decide)).1

/-- C5: on a 5×5 grid seeded with the horizontal three-cell blinker
and every other cell DEAD, one generation step yields the vertical
three-cell pattern and a second step restores the horizontal pattern
(period 2). -/
theorem blinker_period_two :
    ∀ x, x < 5 → ∀ y, y < 5 →
      (CalculateNextGeneration 5 5 ⟨blinkH, fun _ _ => 0⟩).cur x y = blinkV x y ∧
      (CalculateNextGeneration 5 5
        (CalculateNextGeneration 5 5 ⟨blinkH, fun _ _ => 0⟩)).cur x y = blinkH x y := by
  decide

theorem blinker_period_two_witness :
    (CalculateNextGeneration 5 5 ⟨blinkH, fun _ _ => 0⟩).cur 2 1 = blinkV 2 1 :=
  (blinker_period_two 2 (by decide) 1 (by decide)).1

/-- C6: an isolated ALIVE cell (here at (2, 2) of a 5×5 grid) dies
after one generation step, and the all-DEAD state is a fixed point:
after any number of steps every cell of the current buffer is DEAD. -/
theorem lone_cell_dies_and_dead_fixed :
    (∀ x, x < 5 → ∀ y, y < 5 →
        (CalculateNextGeneration 5 5 ⟨single5, fun _ _ => 0⟩).cur x y = 0)
    ∧ (∀ (W H n x y : Nat),
        ((CalculateNextGeneration W H)^[n] deadState).cur x y = 0) := by
  constructor
  · decide
  · intro W H n x y
    have key : ∀ m : Nat,
        (∀ a b, ((CalculateNextGeneration W H)^[m] deadState).cur a b = 0) ∧
        (∀ a b, ((CalculateNextGeneration W H)^[m] deadState).work a b = 0) := by
      intro m
      induction m with
      | zero => exact ⟨fun _ _ => rfl, fun _ _ => rfl⟩
      | succ k ih =>
        rw [Function.iterate_succ_apply']
        exact step_dead_dead W H _ ih.1 ih.2
    exact (key n).1 x y

theorem lone_cell_dies_witness :
    (CalculateNextGeneration 5 5 ⟨single5, fun _ _ => 0⟩).cur 2 2 = 0 :=
  lone_cell_dies_and_dead_fixed.1 2 (by decide) 2 (by decide)

/-- C7: on the 3×3 all-ALIVE grid, every in-bounds cell's
live-neighbour count is exactly 8. -/
theorem all_alive_neighbours_eight :
    ∀ x, x < 3 → ∀ y, y < 3 → LiveNeighbourCount 3 3 x y allAlive3 = 8 := by
  decide

theorem all_alive_neighbours_eight_witness :
    LiveNeighbourCount 3 3 0 0 allAlive3 = 8 :=
  all_alive_neighbours_eight 0 (by decide) 0 (by decide)

/-- C8, counterexample: the claim that initialization rejects invalid
configurations — raising an error so that no valid grid is produced
whenever `W ≤ 0`, `H ≤ 0` or `P` lies outside [0, 100] — is false:
`InitGrid` performs no validation, and at the concrete invalid
configuration `W = 3`, `H = 3`, `P = 101` it produces a perfectly
valid two-valued grid. -/
theorem init_no_error_counterexample :
    ¬ (∀ (W H P : Nat) (rands : Nat → Nat), (W = 0 ∨ H = 0 ∨ 100 < P) →
          ¬ validGrid W H (InitGrid W H P rands)) := by
  intro h
  apply h 3 3 101 (fun _ => 0) (by omega)
  intro i hi j hj
  right
  unfold InitGrid
  rw [if_pos ⟨hi, hj⟩, if_pos (show (0 : Nat) % 100 < 101 by decide)]

/-- C8, amended: initialization performs no validation and cannot
fail: for every width, height and probability percentage — including
values the spec calls invalid, such as `P` above 100 — it produces a
grid whose every cell is 0 or 1; no error is ever raised (in the
repository the extents and percentage are fixed positive compile-time
constants, so the invalid configurations cannot arise at runtime). -/
theorem initGrid_always_two_valued :
    ∀ (W H P : Nat) (rands : Nat → Nat) (i j : Nat),
      InitGrid W H P rands i j = 0 ∨ InitGrid W H P rands i j = 1 := by
  intro W H P rands i j
  unfold InitGrid
  split_ifs <;> simp

/-- C9: every buffer cell holds only 0 or 1: initialization writes
only 0 or 1 into each cell, and for a state whose buffers are
two-valued, a generation step leaves both buffers two-valued at every
cell. -/
theorem two_valued_invariant :
    (∀ (W H P : Nat) (rands : Nat → Nat) (i j : Nat),
        InitGrid W H P rands i j = 0 ∨ InitGrid W H P rands i j = 1)
    ∧ (∀ (W H : Nat) (st : GridState),
        (∀ a b, st.cur a b = 0 ∨ st.cur a b = 1) →
        (∀ a b, st.work a b = 0 ∨ st.work a b = 1) →
        ∀ a b,
          ((CalculateNextGeneration W H st).cur a b = 0 ∨
            (CalculateNextGeneration W H st).cur a b = 1) ∧
          ((CalculateNextGeneration W H st).work a b = 0 ∨
            (CalculateNextGeneration W H st).work a b = 1)) := by
  constructor
  · intro W H P rands i j
    unfold InitGrid
    split_ifs <;> simp
  · intro W H st hc hw a b
    constructor
    · rw [CalculateNextGeneration_cur]
      split_ifs with h
      · exact nextCell_two_valued W H st.cur a b
      · exact hc a b
    · rw [CalculateNextGeneration_work]
      split_ifs with h
      · exact nextCell_two_valued W H st.cur a b
      · exact hw a b

theorem two_valued_invariant_witness :
    (CalculateNextGeneration 1 1 ⟨fun _ _ => 0, fun _ _ => 0⟩).cur 0 0 = 0 ∨
    (CalculateNextGeneration 1 1 ⟨fun _ _ => 0, fun _ _ => 0⟩).cur 0 0 = 1 :=
  (two_valued_invariant.2 1 1 ⟨fun _ _ => 0, fun _ _ => 0⟩
    (fun _ _ => Or.inl rfl) (fun _ _ => Or.inl rfl) 0 0).1

/-- C10: after a generation step, the current and working buffers hold
identical contents at every in-bounds cell — the closing copy
duplicates the working buffer into the current buffer rather than
swapping and discarding it. -/
theorem step_buffers_agree (W H : Nat) (st : GridState) (x y : Nat)
    (hx : x < W) (hy : y < H) :
    (CalculateNextGeneration W H st).cur x y
      = (CalculateNextGeneration W H st).work x y := by
  rw [CalculateNextGeneration_cur, CalculateNextGeneration_work,
      if_pos ⟨hx, hy⟩, if_pos ⟨hx, hy⟩]

theorem step_buffers_agree_witness :
    (CalculateNextGeneration 1 1 ⟨fun _ _ => 0, fun _ _ => 9⟩).cur 0 0
      = (CalculateNextGeneration 1 1 ⟨fun _ _ => 0, fun _ _ => 9⟩).work 0 0 :=
  step_buffers_agree 1 1 ⟨fun _ _ => 0, fun _ _ => 9⟩ 0 0 (by decide) (by decide)

end GOL
